import Mathlib

/-!
Shallow embedding of `src/examples/projects/tunnels/data-science/analysis/example.py`
(the `load_commit_times` example script of the mutagen repository).

The script is:

  _COMMITS_URL = 'https://api.github.com/repos/mutagen-io/mutagen/commits'

  def load_commit_times():
      commits = requests.get(_COMMITS_URL).json()
      times = [c['commit']['author']['date'] for c in commits]
      return pd.Series(times).astype('datetime64')

We model:
  * JSON values (`Json`) together with a real recursive-descent JSON text
    decoder (`parseJson`), standing for `Response.json()` of the `requests`
    library (which wraps `json.loads`);
  * naive (timezone-free) timestamps (`Timestamp`) and the ISO-8601 parsing
    performed by `pd.Series(times).astype('datetime64')`, which yields
    timezone-naive `datetime64` values, dropping a trailing UTC designator;
  * the pipeline `load_from_response` over a decoded HTTP response, and
    `load_commit_times` over an HTTP oracle `Request → Response`, which also
    returns the trace of outbound requests so that effect claims are statable.

Failure modes of the Python code (uncaught exceptions) are modelled by the
explicit error type `LoadError`: `json.JSONDecodeError` from `.json()` is
`decodeError`; `KeyError`/`TypeError` while evaluating the comprehension is
`schemaError`; a pandas/numpy failure to convert a date string is
`timestampParseError`.
-/

/-- JSON value, as produced by Python's `json.loads`.  Objects keep their
member list in textual order; `lookupField` below returns the last binding of
a key, matching the way `json.loads` builds a `dict` (later duplicates win).
Numeric literals are kept as their source text in `num` since no behaviour of
the script depends on numeric values. -/
inductive Json where
  | null : Json
  | bool (b : Bool) : Json
  | num (lit : String) : Json
  | str (s : String) : Json
  | arr (elems : List Json) : Json
  | obj (fields : List (String × Json)) : Json
deriving Repr

/-- Last-binding-wins association lookup, matching `dict` construction by
`json.loads` followed by `d[key]`. -/
def lookupField : List (String × Json) → String → Option Json
  | [], _ => none
  | (k, v) :: rest, key =>
    match lookupField rest key with
    | some v2 => some v2
    | none => if k = key then some v else none

/-- Python subscript `j[key]`: succeeds only on an object containing the key
(`KeyError` / `TypeError` otherwise, both modelled as `none`). -/
def getKey : Json → String → Option Json
  | Json.obj fields, key => lookupField fields key
  | _, _ => none

/-- Whitespace skipping of the JSON grammar (space, tab, newline, return). -/
def skipWs : List Char → List Char
  | c :: rest =>
    if c = ' ' ∨ c = '\t' ∨ c = '\n' ∨ c = '\r' then skipWs rest else c :: rest
  | [] => []

/-- Hexadecimal digit value, for `\uXXXX` escapes. -/
def hexVal : Char → Option Nat
  | c =>
    if '0' ≤ c ∧ c ≤ '9' then some (c.toNat - 48)
    else if 'a' ≤ c ∧ c ≤ 'f' then some (c.toNat - 87)
    else if 'A' ≤ c ∧ c ≤ 'F' then some (c.toNat - 55)
    else none

/-- Body of a JSON string literal, after the opening quote; `acc` is the
reversed list of characters read so far.  Control characters must be escaped;
`\uXXXX` escapes decode to the corresponding code point (surrogate pairs are
not recombined, which no claim depends on). -/
def parseStringBody (acc : List Char) : List Char → Option (String × List Char)
  | '"' :: rest => some (⟨acc.reverse⟩, rest)
  | '\\' :: '"' :: rest => parseStringBody ('"' :: acc) rest
  | '\\' :: '\\' :: rest => parseStringBody ('\\' :: acc) rest
  | '\\' :: '/' :: rest => parseStringBody ('/' :: acc) rest
  | '\\' :: 'b' :: rest => parseStringBody ('\x08' :: acc) rest
  | '\\' :: 'f' :: rest => parseStringBody ('\x0c' :: acc) rest
  | '\\' :: 'n' :: rest => parseStringBody ('\n' :: acc) rest
  | '\\' :: 'r' :: rest => parseStringBody ('\x0d' :: acc) rest
  | '\\' :: 't' :: rest => parseStringBody ('\t' :: acc) rest
  | '\\' :: 'u' :: h1 :: h2 :: h3 :: h4 :: rest =>
    match hexVal h1, hexVal h2, hexVal h3, hexVal h4 with
    | some d1, some d2, some d3, some d4 =>
      parseStringBody (Char.ofNat (((d1 * 16 + d2) * 16 + d3) * 16 + d4) :: acc) rest
    | _, _, _, _ => none
  | '\\' :: _ => none
  | c :: rest => if c.toNat < 32 then none else parseStringBody (c :: acc) rest
  | [] => none

/-- Unsigned integer part of a JSON number: `0`, or a nonzero digit followed
by digits (a leading zero may not be followed by further digits). -/
def parseUIntPart : List Char → Option (List Char × List Char)
  | '0' :: rest => some (['0'], rest)
  | c :: rest =>
    if c.isDigit then
      match (c :: rest).span Char.isDigit with
      | (ds, rest2) => some (ds, rest2)
    else none
  | [] => none

/-- Integer part of a JSON number, with optional minus sign. -/
def parseIntPart : List Char → Option (List Char × List Char)
  | '-' :: rest => (parseUIntPart rest).map (fun p => ('-' :: p.1, p.2))
  | cs => parseUIntPart cs

/-- Optional fractional part `.digits` of a JSON number. -/
def parseFrac : List Char → Option (List Char × List Char)
  | '.' :: rest =>
    match rest.span Char.isDigit with
    | ([], _) => none
    | (ds, rest2) => some ('.' :: ds, rest2)
  | cs => some ([], cs)

/-- Digits of an exponent, given the already-read `e`/`E` and sign prefix. -/
def parseExpDigits (pre : List Char) (cs : List Char) : Option (List Char × List Char) :=
  match cs.span Char.isDigit with
  | ([], _) => none
  | (ds, rest) => some (pre ++ ds, rest)

/-- Optional exponent part of a JSON number. -/
def parseExpPart : List Char → Option (List Char × List Char)
  | 'e' :: '+' :: rest => parseExpDigits ['e', '+'] rest
  | 'e' :: '-' :: rest => parseExpDigits ['e', '-'] rest
  | 'e' :: rest => parseExpDigits ['e'] rest
  | 'E' :: '+' :: rest => parseExpDigits ['E', '+'] rest
  | 'E' :: '-' :: rest => parseExpDigits ['E', '-'] rest
  | 'E' :: rest => parseExpDigits ['E'] rest
  | cs => some ([], cs)

/-- A JSON number, kept as its lexeme. -/
def parseNumber (cs : List Char) : Option (Json × List Char) :=
  match parseIntPart cs with
  | none => none
  | some (ip, cs2) =>
    match parseFrac cs2 with
    | none => none
    | some (fp, cs3) =>
      match parseExpPart cs3 with
      | none => none
      | some (ep, cs4) => some (Json.num ⟨ip ++ fp ++ ep⟩, cs4)

mutual

/-- JSON value, fuel-indexed recursive descent (the fuel only bounds nesting
recursion; `parseJson` supplies enough for any input it is given).  Besides
the standard grammar, `NaN`, `Infinity` and `-Infinity` are accepted, as
Python's `json.loads` does by default. -/
def parseValue : Nat → List Char → Option (Json × List Char)
  | 0, _ => none
  | Nat.succ fuel, cs =>
    match skipWs cs with
    | 'n' :: 'u' :: 'l' :: 'l' :: rest => some (Json.null, rest)
    | 't' :: 'r' :: 'u' :: 'e' :: rest => some (Json.bool true, rest)
    | 'f' :: 'a' :: 'l' :: 's' :: 'e' :: rest => some (Json.bool false, rest)
    | 'N' :: 'a' :: 'N' :: rest => some (Json.num "NaN", rest)
    | 'I' :: 'n' :: 'f' :: 'i' :: 'n' :: 'i' :: 't' :: 'y' :: rest =>
      some (Json.num "Infinity", rest)
    | '-' :: 'I' :: 'n' :: 'f' :: 'i' :: 'n' :: 'i' :: 't' :: 'y' :: rest =>
      some (Json.num "-Infinity", rest)
    | '"' :: rest => (parseStringBody [] rest).map (fun p => (Json.str p.1, p.2))
    | '[' :: rest =>
      match skipWs rest with
      | ']' :: rest2 => some (Json.arr [], rest2)
      | rest2 => (parseElems fuel rest2).map (fun p => (Json.arr p.1, p.2))
    | '\x7b' :: rest =>
      match skipWs rest with
      | '\x7d' :: rest2 => some (Json.obj [], rest2)
      | rest2 => (parseMembers fuel rest2).map (fun p => (Json.obj p.1, p.2))
    | rest => parseNumber rest

/-- Comma-separated array elements, up to and including the closing bracket. -/
def parseElems : Nat → List Char → Option (List Json × List Char)
  | 0, _ => none
  | Nat.succ fuel, cs =>
    match parseValue fuel cs with
    | none => none
    | some (j, rest) =>
      match skipWs rest with
      | ',' :: rest2 => (parseElems fuel rest2).map (fun p => (j :: p.1, p.2))
      | ']' :: rest2 => some ([j], rest2)
      | _ => none

/-- Comma-separated object members, up to and including the closing brace. -/
def parseMembers : Nat → List Char → Option (List (String × Json) × List Char)
  | 0, _ => none
  | Nat.succ fuel, cs =>
    match skipWs cs with
    | '"' :: rest =>
      match parseStringBody [] rest with
      | none => none
      | some (k, rest2) =>
        match skipWs rest2 with
        | ':' :: rest3 =>
          match parseValue fuel rest3 with
          | none => none
          | some (v, rest4) =>
            match skipWs rest4 with
            | ',' :: rest5 => (parseMembers fuel rest5).map (fun p => ((k, v) :: p.1, p.2))
            | '\x7d' :: rest5 => some ([(k, v)], rest5)
            | _ => none
        | _ => none
    | _ => none

end

/-- Python's `json.loads`: decode the whole body or fail (`none` models a
raised `json.JSONDecodeError`).  Leading and trailing whitespace is allowed;
any other trailing text is an error. -/
def parseJson (s : String) : Option Json :=
  match parseValue (s.length + 1) s.data with
  | some (j, rest) =>
    match skipWs rest with
    | [] => some j
    | _ => none
  | none => none

/-- Timezone-naive timestamp, the element type of the returned series: the
`astype('datetime64')` conversion produces naive `datetime64` values (wall
clock, any UTC designator dropped), so the model carries no offset field. -/
structure Timestamp where
  year : Nat
  month : Nat
  day : Nat
  hour : Nat
  minute : Nat
  second : Nat
deriving DecidableEq, Repr

/-- Gregorian leap-year rule. -/
def isLeapYear (y : Nat) : Bool := (y % 4 = 0 ∧ y % 100 ≠ 0) ∨ y % 400 = 0

/-- Number of days in a month of a given year. -/
def daysInMonth (y m : Nat) : Nat :=
  if m = 2 then (if isLeapYear y then 29 else 28)
  else if m = 4 ∨ m = 6 ∨ m = 9 ∨ m = 11 then 30 else 31

/-- Value of a decimal digit character. -/
def digitVal : Char → Option Nat
  | c => if c.isDigit then some (c.toNat - 48) else none

/-- Two mandatory decimal digits. -/
def parse2Digits : List Char → Option (Nat × List Char)
  | c1 :: c2 :: rest =>
    match digitVal c1, digitVal c2 with
    | some d1, some d2 => some (d1 * 10 + d2, rest)
    | _, _ => none
  | _ => none

/-- Four mandatory decimal digits. -/
def parse4Digits : List Char → Option (Nat × List Char)
  | c1 :: c2 :: c3 :: c4 :: rest =>
    match digitVal c1, digitVal c2, digitVal c3, digitVal c4 with
    | some d1, some d2, some d3, some d4 =>
      some (((d1 * 10 + d2) * 10 + d3) * 10 + d4, rest)
    | _, _, _, _ => none
  | _ => none

/-- One expected character. -/
def expectChar (c : Char) : List Char → Option (List Char)
  | c2 :: rest => if c2 = c then some rest else none
  | [] => none

/-- Range validation of the parsed calendar and clock fields, as the
datetime conversion performs (out-of-range components are a parse error). -/
def finishTimestamp (y mo d h mi s : Nat) : Option Timestamp :=
  if 1 ≤ mo ∧ mo ≤ 12 ∧ 1 ≤ d ∧ d ≤ daysInMonth y mo ∧ h < 24 ∧ mi < 60 ∧ s < 60
  then some ⟨y, mo, d, h, mi, s⟩ else none

/-- Clock part of the form `HH:MM:SS`. -/
def parseTimeOfDay (cs : List Char) : Option (Nat × Nat × Nat × List Char) :=
  match parse2Digits cs with
  | none => none
  | some (h, cs1) =>
    match expectChar ':' cs1 with
    | none => none
    | some cs2 =>
      match parse2Digits cs2 with
      | none => none
      | some (mi, cs3) =>
        match expectChar ':' cs3 with
        | none => none
        | some cs4 =>
          match parse2Digits cs4 with
          | none => none
          | some (s, cs5) => some (h, mi, s, cs5)

/-- ISO-8601 timestamp in the forms produced by the GitHub API and accepted
by the datetime conversion: `YYYY-MM-DD`, optionally followed by a `T` or
space separator and `HH:MM:SS`, optionally suffixed by the UTC designator
`Z` — which is dropped, yielding the naive wall-clock timestamp. -/
def parseTimestampChars (cs : List Char) : Option Timestamp :=
  match parse4Digits cs with
  | none => none
  | some (y, cs1) =>
    match expectChar '-' cs1 with
    | none => none
    | some cs2 =>
      match parse2Digits cs2 with
      | none => none
      | some (mo, cs3) =>
        match expectChar '-' cs3 with
        | none => none
        | some cs4 =>
          match parse2Digits cs4 with
          | none => none
          | some (d, cs5) =>
            match cs5 with
            | [] => finishTimestamp y mo d 0 0 0
            | sep :: cs6 =>
              if sep = 'T' ∨ sep = ' ' then
                match parseTimeOfDay cs6 with
                | none => none
                | some (h, mi, s, cs7) =>
                  match cs7 with
                  | [] => finishTimestamp y mo d h mi s
                  | ['Z'] => finishTimestamp y mo d h mi s
                  | _ => none
              else none

/-- String-to-naive-timestamp conversion applied by
`pd.Series(times).astype('datetime64')` to each element. -/
def parseTimestamp (s : String) : Option Timestamp := parseTimestampChars s.data

/-- Conversion of one element of the `times` list: elements are expected to
be strings; any failure is the pandas conversion error. -/
def jsonToTime : Json → Option Timestamp
  | Json.str s => parseTimestamp s
  | _ => none

/-- The distinct uncaught failure kinds of the script (see spec section 7):
JSON decoding, shape/key access, and timestamp conversion. -/
inductive LoadError where
  | decodeError
  | schemaError
  | timestampParseError
deriving DecidableEq, Repr

/-- Pandas `Series` as the script returns it: a positional integer index
(the default `RangeIndex`) next to the value column. -/
structure Series where
  index : List Nat
  values : List Timestamp
deriving DecidableEq, Repr

/-- Construction `pd.Series(ts)`: the default positional index `0, 1, …, N-1` next to the values. -/
def mkSeries (ts : List Timestamp) : Series := ⟨List.range ts.length, ts⟩

/-- Python iteration `for c in commits`: a list yields its elements, a dict
yields its keys (as strings), a string yields its one-character substrings;
`null`, booleans and numbers are not iterable (`TypeError`). -/
def pyIter : Json → Option (List Json)
  | Json.arr xs => some xs
  | Json.obj kvs => some (kvs.map (fun kv => Json.str kv.1))
  | Json.str s => some (s.data.map (fun c => Json.str ⟨[c]⟩))
  | _ => none

/-- The subscript chain `c['commit']['author']['date']`. -/
def extractDate (c : Json) : Option Json :=
  match getKey c "commit" with
  | none => none
  | some commit =>
    match getKey commit "author" with
    | none => none
    | some author => getKey author "date"

/-- The list comprehension `[c['commit']['author']['date'] for c in commits]`:
it runs to completion (or raises) before any timestamp conversion happens. -/
def extractTimes : List Json → Except LoadError (List Json)
  | [] => Except.ok []
  | c :: rest =>
    match extractDate c with
    | none => Except.error LoadError.schemaError
    | some d =>
      match extractTimes rest with
      | Except.error e => Except.error e
      | Except.ok ds => Except.ok (d :: ds)

/-- The element conversions performed by `astype('datetime64')`. -/
def convertTimes : List Json → Except LoadError (List Timestamp)
  | [] => Except.ok []
  | d :: rest =>
    match jsonToTime d with
    | none => Except.error LoadError.timestampParseError
    | some t =>
      match convertTimes rest with
      | Except.error e => Except.error e
      | Except.ok ts => Except.ok (t :: ts)

/-- The whole post-decode pipeline on the decoded JSON body. -/
def processBody (j : Json) : Except LoadError Series :=
  match pyIter j with
  | none => Except.error LoadError.schemaError
  | some commits =>
    match extractTimes commits with
    | Except.error e => Except.error e
    | Except.ok ds =>
      match convertTimes ds with
      | Except.error e => Except.error e
      | Except.ok ts => Except.ok (mkSeries ts)

/-- Composite per-record conversion: the date field of a record, parsed. -/
def commitTime (c : Json) : Option Timestamp :=
  match extractDate c with
  | none => none
  | some d => jsonToTime d

/-- A commit record the script can fully process. -/
def WellFormedCommit (c : Json) : Prop :=
  ∃ s : String, ∃ t : Timestamp,
    extractDate c = some (Json.str s) ∧ parseTimestamp s = some t

instance : DecidablePred WellFormedCommit := fun c => by
  unfold WellFormedCommit
  cases h : extractDate c with
  | none => exact Decidable.isFalse (by simp [h])
  | some d =>
    cases d with
    | str s =>
      cases ht : parseTimestamp s with
      | none => exact Decidable.isFalse (by simp [h, ht])
      | some t => exact Decidable.isTrue ⟨s, t, by simp [h, ht]⟩
    | null => exact Decidable.isFalse (by simp [h])
    | bool b => exact Decidable.isFalse (by simp [h])
    | num l => exact Decidable.isFalse (by simp [h])
    | arr xs => exact Decidable.isFalse (by simp [h])
    | obj kvs => exact Decidable.isFalse (by simp [h])

/-- HTTP response as seen by the script: the `requests` response object.
Only `body` is ever consumed (`.json()` decodes the body text); the status
code is modelled so that its being ignored is statable. -/
structure Response where
  status : Nat
  body : String
deriving DecidableEq, Repr

/-- Outbound HTTP request issued by `requests.get`. -/
structure Request where
  method : String
  url : String
  params : List (String × String)
  headers : List (String × String)
  body : Option String
deriving DecidableEq, Repr

/-- The hardcoded GitHub API endpoint of the script. -/
def _COMMITS_URL : String := "https://api.github.com/repos/mutagen-io/mutagen/commits"

/-- The one request `requests.get(_COMMITS_URL)` issues: a GET with no query
parameters, no headers beyond the library defaults, and no body. -/
def theRequest : Request :=
  { method := "GET", url := _COMMITS_URL, params := [], headers := [], body := none }

/-- The pure part of `load_commit_times`, from the received response to the
returned series (or the uncaught error). -/
def load_from_response (r : Response) : Except LoadError Series :=
  match parseJson r.body with
  | none => Except.error LoadError.decodeError
  | some j => processBody j

/-- Model of `load_commit_times()`, with the network abstracted as an oracle mapping
each request to its response.  The second component is the trace of outbound
requests performed by the call. -/
def load_commit_times (http : Request → Response) :
    Except LoadError Series × List Request :=
  (load_from_response (http theRequest), [theRequest])

/-- Two successive invocations of `load_commit_times()` against the same
network: both results, with the concatenated request trace. -/
def load_commit_times_twice (http : Request → Response) :
    (Except LoadError Series × Except LoadError Series) × List Request :=
  (((load_commit_times http).1, (load_commit_times http).1),
    (load_commit_times http).2 ++ (load_commit_times http).2)

/-- Decimal digit character. -/
def digitChar (d : Nat) : Char := Char.ofNat (48 + d)

/-- Two-digit zero-padded decimal rendering. -/
def pad2 (n : Nat) : List Char := [digitChar (n / 10), digitChar (n % 10)]

/-- Four-digit zero-padded decimal rendering. -/
def pad4 (n : Nat) : List Char :=
  [digitChar (n / 1000), digitChar (n / 100 % 10), digitChar (n / 10 % 10), digitChar (n % 10)]

/-- Rendering `YYYY-MM-DDTHH:MM:SS` of a timestamp, with a caller-chosen
suffix (`['Z']` for the GitHub API's UTC designator, `[]` for none). -/
def renderTail (t : Timestamp) (tail : List Char) : List Char :=
  pad4 t.year ++ '-' :: (pad2 t.month ++ '-' :: (pad2 t.day ++ 'T' ::
    (pad2 t.hour ++ ':' :: (pad2 t.minute ++ ':' :: (pad2 t.second ++ tail)))))

/-- The ISO-8601 form the GitHub API serves, e.g. `2023-01-15T10:30:00Z`. -/
def renderISO (t : Timestamp) : String := ⟨renderTail t ['Z']⟩

/-- The same instant without the UTC designator. -/
def renderNaive (t : Timestamp) : String := ⟨renderTail t []⟩

/-- A timestamp whose rendering is well-formed (four-digit year, calendar
and clock fields in range). -/
def ValidTimestamp (t : Timestamp) : Prop :=
  t.year < 10000 ∧ 1 ≤ t.month ∧ t.month ≤ 12 ∧ 1 ≤ t.day ∧
    t.day ≤ daysInMonth t.year t.month ∧ t.hour < 24 ∧ t.minute < 60 ∧ t.second < 60

instance (t : Timestamp) : Decidable (ValidTimestamp t) := by
  unfold ValidTimestamp
  infer_instance

/-- Response body with two well-formed commit records (concrete test input). -/
def bodyTwo : String :=
  "[\x7b\"sha\": \"a1\", \"commit\": \x7b\"author\": \x7b\"name\": \"x\", \"date\": \"2023-01-15T10:30:00Z\"\x7d\x7d\x7d, \x7b\"commit\": \x7b\"author\": \x7b\"date\": \"2024-02-29T23:59:59Z\"\x7d\x7d\x7d]"

/-- The decoded records of `bodyTwo`. -/
def commitsTwo : List Json :=
  [Json.obj [("sha", Json.str "a1"),
     ("commit", Json.obj [("author",
       Json.obj [("name", Json.str "x"), ("date", Json.str "2023-01-15T10:30:00Z")])])],
   Json.obj [("commit", Json.obj [("author",
       Json.obj [("date", Json.str "2024-02-29T23:59:59Z")])])]]

/-- Response body whose first record lacks the `commit` key and whose second
record carries an unparseable date (concrete test input). -/
def bodyMixed : String :=
  "[\x7b\"sha\": \"a1\"\x7d, \x7b\"commit\": \x7b\"author\": \x7b\"date\": \"not-a-date\"\x7d\x7d\x7d]"

/-- The decoded records of `bodyMixed`. -/
def commitsMixed : List Json :=
  [Json.obj [("sha", Json.str "a1")],
   Json.obj [("commit", Json.obj [("author", Json.obj [("date", Json.str "not-a-date")])])]]

/-- Response body with one record whose date string is unparseable
(concrete test input). -/
def bodyBadDate : String :=
  "[\x7b\"commit\": \x7b\"author\": \x7b\"date\": \"not-a-date\"\x7d\x7d\x7d]"

/-- The single decoded record of `bodyBadDate`. -/
def badDateCommit : Json :=
  Json.obj [("commit", Json.obj [("author", Json.obj [("date", Json.str "not-a-date")])])]

/-- A network oracle answering every request with an empty commit list. -/
def httpEmptyA : Request → Response := fun _ => ⟨200, "[]"⟩

/-- A differently written network oracle that agrees with `httpEmptyA` on
the one request the script issues. -/
def httpEmptyB : Request → Response :=
  fun r => ⟨200, if r.method = "GET" then "[]" else "irrelevant"⟩

/-- The instant `2023-01-15T10:30:00Z`, as a naive timestamp. -/
def ts0 : Timestamp := ⟨2023, 1, 15, 10, 30, 0⟩

/-- The timestamps of `bodyTwo`, in response order. -/
def tsTwo : List Timestamp := [⟨2023, 1, 15, 10, 30, 0⟩, ⟨2024, 2, 29, 23, 59, 59⟩]

set_option maxRecDepth 10000

theorem commitTime_eq (c : Json) : commitTime c = (extractDate c).bind jsonToTime := by
  cases h : extractDate c <;> simp [commitTime, h]

theorem extractTimes_ok_length (cs ds : List Json) (h : extractTimes cs = Except.ok ds) :
    ds.length = cs.length := by
  induction cs generalizing ds with
  | nil =>
    simp only [extractTimes] at h
    injection h with h2
    subst h2
    rfl
  | cons c rest ih =>
    simp only [extractTimes] at h
    split at h
    · simp at h
    · split at h
      · simp at h
      next ds2 he =>
        injection h with h2
        subst h2
        simp [ih ds2 he]

theorem extractTimes_ok_getElem (cs ds : List Json) (h : extractTimes cs = Except.ok ds)
    (i : Nat) : (cs[i]?).bind extractDate = ds[i]? := by
  induction cs generalizing ds i with
  | nil =>
    simp only [extractTimes] at h
    injection h with h2
    subst h2
    simp
  | cons c rest ih =>
    simp only [extractTimes] at h
    split at h
    · simp at h
    next d hd =>
      split at h
      · simp at h
      next ds2 he =>
        injection h with h2
        subst h2
        cases i with
        | zero => simp [hd]
        | succ j =>
          simp only [List.getElem?_cons_succ]
          exact ih ds2 he j

theorem convertTimes_ok_length (ds : List Json) (ts : List Timestamp)
    (h : convertTimes ds = Except.ok ts) : ts.length = ds.length := by
  induction ds generalizing ts with
  | nil =>
    simp only [convertTimes] at h
    injection h with h2
    subst h2
    rfl
  | cons d rest ih =>
    simp only [convertTimes] at h
    split at h
    · simp at h
    · split at h
      · simp at h
      next ts2 he =>
        injection h with h2
        subst h2
        simp [ih ts2 he]

theorem convertTimes_ok_getElem (ds : List Json) (ts : List Timestamp)
    (h : convertTimes ds = Except.ok ts) (i : Nat) :
    (ds[i]?).bind jsonToTime = ts[i]? := by
  induction ds generalizing ts i with
  | nil =>
    simp only [convertTimes] at h
    injection h with h2
    subst h2
    simp
  | cons d rest ih =>
    simp only [convertTimes] at h
    split at h
    · simp at h
    next t ht =>
      split at h
      · simp at h
      next ts2 he =>
        injection h with h2
        subst h2
        cases i with
        | zero => simp [ht]
        | succ j =>
          simp only [List.getElem?_cons_succ]
          exact ih ts2 he j

theorem extractTimes_ok_of_all (cs : List Json) (h : ∀ c ∈ cs, (extractDate c).isSome) :
    ∃ ds, extractTimes cs = Except.ok ds := by
  induction cs with
  | nil => exact ⟨[], rfl⟩
  | cons c rest ih =>
    obtain ⟨d, hd⟩ := Option.isSome_iff_exists.mp (h c (List.mem_cons_self c rest))
    obtain ⟨ds, hds⟩ := ih (fun x hx => h x (List.mem_cons_of_mem c hx))
    exact ⟨d :: ds, by simp [extractTimes, hd, hds]⟩

theorem convertTimes_ok_of_all (ds : List Json) (h : ∀ d ∈ ds, (jsonToTime d).isSome) :
    ∃ ts, convertTimes ds = Except.ok ts := by
  induction ds with
  | nil => exact ⟨[], rfl⟩
  | cons d rest ih =>
    obtain ⟨t, ht⟩ := Option.isSome_iff_exists.mp (h d (List.mem_cons_self d rest))
    obtain ⟨ts, hts⟩ := ih (fun x hx => h x (List.mem_cons_of_mem d hx))
    exact ⟨t :: ts, by simp [convertTimes, ht, hts]⟩

theorem extractTimes_schemaError_of_mem (cs : List Json) (c : Json) (hc : c ∈ cs)
    (h : extractDate c = none) : extractTimes cs = Except.error LoadError.schemaError := by
  induction cs with
  | nil => cases hc
  | cons c0 rest ih =>
    rcases List.mem_cons.mp hc with rfl | hmem
    · simp [extractTimes, h]
    · cases hd : extractDate c0 with
      | none => simp [extractTimes, hd]
      | some d => simp [extractTimes, hd, ih hmem]

theorem convertTimes_parseError_of_mem (ds : List Json) (d : Json) (hd : d ∈ ds)
    (h : jsonToTime d = none) :
    convertTimes ds = Except.error LoadError.timestampParseError := by
  induction ds with
  | nil => cases hd
  | cons d0 rest ih =>
    rcases List.mem_cons.mp hd with rfl | hmem
    · simp [convertTimes, h]
    · cases ht : jsonToTime d0 with
      | none => simp [convertTimes, ht]
      | some t => simp [convertTimes, ht, ih hmem]

theorem mkSeries_inj (ts1 ts2 : List Timestamp) (h : mkSeries ts1 = mkSeries ts2) :
    ts1 = ts2 := by
  simpa [mkSeries] using congrArg Series.values h

theorem processBody_arr_ok_inv (commits : List Json) (ser : Series)
    (h : processBody (Json.arr commits) = Except.ok ser) :
    ∃ ds ts, extractTimes commits = Except.ok ds ∧ convertTimes ds = Except.ok ts ∧
      ser = mkSeries ts := by
  simp only [processBody, pyIter] at h
  split at h
  · simp at h
  next ds hds =>
    split at h
    · simp at h
    next ts hts =>
      injection h with h2
      exact ⟨ds, ts, hds, hts, h2.symm⟩

theorem digitVal_digitChar (d : Nat) (h : d < 10) : digitVal (digitChar d) = some d := by
  interval_cases d <;> decide

theorem parse2Digits_pad2 (n : Nat) (h : n < 100) (rest : List Char) :
    parse2Digits (pad2 n ++ rest) = some (n, rest) := by
  have h1 : n / 10 < 10 := by omega
  have h2 : n % 10 < 10 := by omega
  simp only [pad2, List.cons_append, List.nil_append, parse2Digits,
    digitVal_digitChar _ h1, digitVal_digitChar _ h2]
  have : n / 10 * 10 + n % 10 = n := by omega
  rw [this]

theorem parse4Digits_pad4 (n : Nat) (h : n < 10000) (rest : List Char) :
    parse4Digits (pad4 n ++ rest) = some (n, rest) := by
  have h1 : n / 1000 < 10 := by omega
  have h2 : n / 100 % 10 < 10 := by omega
  have h3 : n / 10 % 10 < 10 := by omega
  have h4 : n % 10 < 10 := by omega
  simp only [pad4, List.cons_append, List.nil_append, parse4Digits,
    digitVal_digitChar _ h1, digitVal_digitChar _ h2, digitVal_digitChar _ h3,
    digitVal_digitChar _ h4]
  have : ((n / 1000 * 10 + n / 100 % 10) * 10 + n / 10 % 10) * 10 + n % 10 = n := by omega
  rw [this]

theorem expectChar_self (c : Char) (rest : List Char) :
    expectChar c (c :: rest) = some rest := by
  simp [expectChar]

theorem parseTimeOfDay_pad (h mi s : Nat) (hh : h < 100) (hmi : mi < 100) (hs : s < 100)
    (tail : List Char) :
    parseTimeOfDay (pad2 h ++ ':' :: (pad2 mi ++ ':' :: (pad2 s ++ tail))) =
      some (h, mi, s, tail) := by
  simp only [parseTimeOfDay, parse2Digits_pad2 _ hh, expectChar_self,
    parse2Digits_pad2 _ hmi, parse2Digits_pad2 _ hs]

theorem daysInMonth_le (y m : Nat) : daysInMonth y m ≤ 31 := by
  unfold daysInMonth
  split_ifs <;> omega

theorem parse_renderTail (t : Timestamp) (hv : ValidTimestamp t) (tail : List Char)
    (htail : tail = [] ∨ tail = ['Z']) :
    parseTimestampChars (renderTail t tail) = some t := by
  obtain ⟨h1, h2, h3, h4, h5, h6, h7, h8⟩ := hv
  have hmo : t.month < 100 := by omega
  have hday : t.day < 100 := by
    have := daysInMonth_le t.year t.month
    omega
  have hh : t.hour < 100 := by omega
  have hmi : t.minute < 100 := by omega
  have hs : t.second < 100 := by omega
  simp only [renderTail, parseTimestampChars, parse4Digits_pad4 _ h1, expectChar_self,
    parse2Digits_pad2 _ hmo, parse2Digits_pad2 _ hday, parseTimeOfDay_pad _ _ _ hh hmi hs]
  rcases htail with rfl | rfl <;>
    simp [finishTimestamp, h2, h3, h4, h5, h6, h7, h8]

/-- C1: for every API response whose body is a JSON list of well-formed commit
records, `load_commit_times` returns a series with exactly one timestamp per
record — the output length equals the input length and element `i` of the
output is exactly the parsed date of record `i`, so the order is preserved and
no filtering, deduplication or sorting happens. -/
theorem C1_one_timestamp_per_record (r : Response) (commits : List Json)
    (hdec : parseJson r.body = some (Json.arr commits))
    (hwf : ∀ c ∈ commits, WellFormedCommit c) :
    ∃ ts : List Timestamp, load_from_response r = Except.ok (mkSeries ts) ∧
      ts.length = commits.length ∧
      ∀ i : Nat, ts[i]? = (commits[i]?).bind commitTime := by
  have hall : ∀ c ∈ commits, (extractDate c).isSome := by
    intro c hc
    obtain ⟨s, t, hs, ht⟩ := hwf c hc
    simp [hs]
  obtain ⟨ds, hds⟩ := extractTimes_ok_of_all commits hall
  have hallds : ∀ d ∈ ds, (jsonToTime d).isSome := by
    intro d hdmem
    obtain ⟨i, hi⟩ := List.getElem?_of_mem hdmem
    have hix := extractTimes_ok_getElem commits ds hds i
    rw [hi] at hix
    cases hci : commits[i]? with
    | none => rw [hci] at hix; simp at hix
    | some c =>
      rw [hci] at hix
      simp only [Option.some_bind] at hix
      obtain ⟨s, t, hs, ht⟩ := hwf c (List.getElem?_mem hci)
      rw [hs] at hix
      injection hix with h2
      subst h2
      simp [jsonToTime, ht]
  obtain ⟨ts, hts⟩ := convertTimes_ok_of_all ds hallds
  refine ⟨ts, ?_, ?_, ?_⟩
  · simp [load_from_response, hdec, processBody, pyIter, hds, hts]
  · rw [convertTimes_ok_length ds ts hts, extractTimes_ok_length commits ds hds]
  · intro i
    have h1 := extractTimes_ok_getElem commits ds hds i
    have h2 := convertTimes_ok_getElem ds ts hts i
    rw [← h2, ← h1, Option.bind_assoc]
    simp only [← commitTime_eq]

theorem C1_witness :
    ∃ ts : List Timestamp,
      load_from_response ⟨200, bodyTwo⟩ = Except.ok (mkSeries ts) ∧
      ts.length = commitsTwo.length ∧
      ∀ i : Nat, ts[i]? = (commitsTwo[i]?).bind commitTime :=
  C1_one_timestamp_per_record ⟨200, bodyTwo⟩ commitsTwo (by rfl) (by decide)

/-- C2: if record `i` of the decoded response carries
`commit.author.date = "2023-01-15T10:30:00Z"` and the call returns a series,
then element `i` of that series is exactly the instant
2023-01-15 10:30:00; moreover the string-to-timestamp conversion is a
lossless round trip on every valid rendered ISO-8601 input. -/
theorem C2_positional_instant_and_roundtrip :
    (∀ (r : Response) (commits : List Json) (ts : List Timestamp) (i : Nat),
      parseJson r.body = some (Json.arr commits) →
      load_from_response r = Except.ok (mkSeries ts) →
      (commits[i]?).bind extractDate = some (Json.str "2023-01-15T10:30:00Z") →
      ts[i]? = some ts0) ∧
    (∀ t : Timestamp, ValidTimestamp t → parseTimestamp (renderISO t) = some t) := by
  constructor
  · intro r commits ts i hdec hok hdate
    have hpb : processBody (Json.arr commits) = Except.ok (mkSeries ts) := by
      simpa [load_from_response, hdec] using hok
    obtain ⟨ds, ts2, hds, hts2, hser⟩ := processBody_arr_ok_inv commits (mkSeries ts) hpb
    have hts2eq : ts = ts2 := mkSeries_inj ts ts2 hser
    subst hts2eq
    have h1 := extractTimes_ok_getElem commits ds hds i
    have h2 := convertTimes_ok_getElem ds ts hts2 i
    rw [← h2, ← h1, hdate]
    rfl
  · intro t hv
    exact parse_renderTail t hv ['Z'] (Or.inr rfl)

theorem C2_witness :
    tsTwo[0]? = some ts0 ∧ parseTimestamp (renderISO ts0) = some ts0 :=
  ⟨C2_positional_instant_and_roundtrip.1 ⟨200, bodyTwo⟩ commitsTwo tsTwo 0
      (by rfl) (by rfl) (by rfl),
    C2_positional_instant_and_roundtrip.2 ts0 (by decide)⟩

/-- C3: if any record of the decoded response list lacks the `commit` key (or
the nested `author` or `date` key — i.e. the subscript chain fails), the call
fails with the schema error and never returns a (shorter) series. -/
theorem C3_missing_key_schema_error (r : Response) (commits : List Json)
    (hdec : parseJson r.body = some (Json.arr commits))
    (hmiss : ∃ c ∈ commits, extractDate c = none) :
    load_from_response r = Except.error LoadError.schemaError ∧
      ∀ ser : Series, load_from_response r ≠ Except.ok ser := by
  obtain ⟨c, hc, hnone⟩ := hmiss
  have h1 := extractTimes_schemaError_of_mem commits c hc hnone
  have hmain : load_from_response r = Except.error LoadError.schemaError := by
    simp [load_from_response, hdec, processBody, pyIter, h1]
  refine ⟨hmain, fun ser h => ?_⟩
  rw [hmain] at h
  cases h

theorem C3_witness :
    load_from_response ⟨500, bodyMixed⟩ = Except.error LoadError.schemaError :=
  (C3_missing_key_schema_error ⟨500, bodyMixed⟩ commitsMixed (by rfl)
    ⟨Json.obj [("sha", Json.str "a1")], List.Mem.head _, by rfl⟩).1

/-- C4: the script never inspects the HTTP status code — two responses with
the same body yield identical results whatever their status codes, and a
response whose body is not valid JSON fails at the JSON-parse step (with the
decode error) for any status code. -/
theorem C4_status_code_ignored :
    (∀ (s1 s2 : Nat) (b : String),
      load_from_response ⟨s1, b⟩ = load_from_response ⟨s2, b⟩) ∧
    (∀ (st : Nat) (b : String), parseJson b = none →
      load_from_response ⟨st, b⟩ = Except.error LoadError.decodeError) := by
  constructor
  · intro s1 s2 b
    rfl
  · intro st b h
    simp [load_from_response, h]

theorem C4_witness :
    load_from_response ⟨404, "[]"⟩ = load_from_response ⟨200, "[]"⟩ ∧
      load_from_response ⟨404, "Not Found"⟩ = Except.error LoadError.decodeError :=
  ⟨C4_status_code_ignored.1 404 200 "[]",
    C4_status_code_ignored.2 404 "Not Found" (by rfl)⟩

/-- C5: an empty JSON array body yields the empty series, with no failure,
whatever the rest of the response looks like. -/
theorem C5_empty_array_empty_series (http : Request → Response)
    (h : (http theRequest).body = "[]") :
    (load_commit_times http).1 = Except.ok (mkSeries []) := by
  show load_from_response (http theRequest) = _
  have hdec : parseJson (http theRequest).body = some (Json.arr []) := by
    rw [h]
    rfl
  simp [load_from_response, hdec, processBody, pyIter, extractTimes, convertTimes]

theorem C5_witness : (load_commit_times httpEmptyA).1 = Except.ok (mkSeries []) :=
  C5_empty_array_empty_series httpEmptyA (by rfl)

/-- C6 counterexample: `bodyMixed` is a response list in which some element's
`commit.author.date` string ("not-a-date") is not parseable as a timestamp,
yet the call fails with the schema error — not the timestamp-parse error the
claim demands — because another element lacks the `commit` key and the list
comprehension raises before any timestamp conversion runs. -/
theorem C6_counterexample :
    extractDate badDateCommit = some (Json.str "not-a-date") ∧
    parseTimestamp "not-a-date" = none ∧
    badDateCommit ∈ commitsMixed ∧
    parseJson bodyMixed = some (Json.arr commitsMixed) ∧
    load_from_response ⟨200, bodyMixed⟩ = Except.error LoadError.schemaError ∧
    load_from_response ⟨200, bodyMixed⟩ ≠ Except.error LoadError.timestampParseError := by
  refine ⟨by rfl, by rfl, ?_, by rfl, by rfl, ?_⟩
  · exact List.Mem.tail _ (List.Mem.head _)
  · intro h
    rw [show load_from_response ⟨200, bodyMixed⟩ = Except.error LoadError.schemaError
      from rfl] at h
    injection h with h2
    cases h2

/-- C6 (amended): if every record of the decoded response list has a
`commit.author.date` value (so the extraction comprehension succeeds) and some
record's date string is not parseable as a timestamp, the call fails with the
timestamp-parse error and returns no series. -/
theorem C6_amended_invalid_date_error (r : Response) (commits : List Json)
    (hdec : parseJson r.body = some (Json.arr commits))
    (hall : ∀ c ∈ commits, (extractDate c).isSome)
    (hbad : ∃ c ∈ commits, ∃ s : String,
      extractDate c = some (Json.str s) ∧ parseTimestamp s = none) :
    load_from_response r = Except.error LoadError.timestampParseError ∧
      ∀ ser : Series, load_from_response r ≠ Except.ok ser := by
  obtain ⟨ds, hds⟩ := extractTimes_ok_of_all commits hall
  obtain ⟨c, hc, s, hcs, hsparse⟩ := hbad
  obtain ⟨i, hi⟩ := List.getElem?_of_mem hc
  have h1 := extractTimes_ok_getElem commits ds hds i
  rw [hi] at h1
  simp only [Option.some_bind] at h1
  rw [hcs] at h1
  have hmem : Json.str s ∈ ds := List.getElem?_mem h1.symm
  have h2 := convertTimes_parseError_of_mem ds (Json.str s) hmem
    (by simp [jsonToTime, hsparse])
  have hmain : load_from_response r = Except.error LoadError.timestampParseError := by
    simp [load_from_response, hdec, processBody, pyIter, hds, h2]
  refine ⟨hmain, fun ser h => ?_⟩
  rw [hmain] at h
  cases h

theorem C6_witness :
    load_from_response ⟨200, bodyBadDate⟩ = Except.error LoadError.timestampParseError :=
  (C6_amended_invalid_date_error ⟨200, bodyBadDate⟩ [badDateCommit] (by rfl) (by decide)
    ⟨badDateCommit, List.Mem.head _, "not-a-date", by rfl, by rfl⟩).1

/-- C7: whenever the response body is not valid JSON, the call fails with the
decode error at the JSON-parse step. -/
theorem C7_non_json_decode_error (r : Response) (h : parseJson r.body = none) :
    load_from_response r = Except.error LoadError.decodeError ∧
      ∀ ser : Series, load_from_response r ≠ Except.ok ser := by
  have hmain : load_from_response r = Except.error LoadError.decodeError := by
    simp [load_from_response, h]
  refine ⟨hmain, fun ser hok => ?_⟩
  rw [hmain] at hok
  cases hok

theorem C7_witness :
    load_from_response ⟨502, "<html>bad gateway</html>"⟩ =
      Except.error LoadError.decodeError :=
  (C7_non_json_decode_error ⟨502, "<html>bad gateway</html>"⟩ (by rfl)).1

/-- C8: every invocation performs exactly one outbound request, a GET to the
constant commits URL with no query parameters, no headers and no body, and two
successive invocations perform exactly two such independent requests (no
caching); the model has no other effect channel, matching the absence of file
or stdout writes in the source. -/
theorem C8_single_constant_get_request :
    (∀ http : Request → Response, (load_commit_times http).2 = [theRequest]) ∧
    theRequest.method = "GET" ∧
    theRequest.url = "https://api.github.com/repos/mutagen-io/mutagen/commits" ∧
    theRequest.url = _COMMITS_URL ∧
    theRequest.params = [] ∧ theRequest.headers = [] ∧ theRequest.body = none ∧
    (∀ http : Request → Response,
      (load_commit_times_twice http).2 = [theRequest, theRequest]) :=
  ⟨fun _ => rfl, rfl, rfl, rfl, rfl, rfl, rfl, fun _ => rfl⟩

/-- C9: the result is a function of the received HTTP response alone — two
invocations whose oracles answer the one issued request identically return
equal results — and an invocation carries no state into the next: both runs of
two successive invocations against the same network equal a fresh single
invocation's result. -/
theorem C9_deterministic_stateless :
    (∀ http1 http2 : Request → Response, http1 theRequest = http2 theRequest →
      (load_commit_times http1).1 = (load_commit_times http2).1) ∧
    (∀ http : Request → Response,
      (load_commit_times_twice http).1.1 = (load_commit_times http).1 ∧
      (load_commit_times_twice http).1.2 = (load_commit_times http).1) := by
  constructor
  · intro http1 http2 he
    show load_from_response (http1 theRequest) = load_from_response (http2 theRequest)
    rw [he]
  · intro http
    exact ⟨rfl, rfl⟩

theorem C9_witness :
    (load_commit_times httpEmptyA).1 = (load_commit_times httpEmptyB).1 :=
  C9_deterministic_stateless.1 httpEmptyA httpEmptyB (by rfl)

/-- C10: the timestamps in the returned series are timezone-naive — a date
string with the explicit UTC designator `Z` parses to the same naive
wall-clock timestamp as the same string without it, the designator being
dropped — and the series is indexed positionally by `0, 1, …, N-1`, not by any
commit identifier. -/
theorem C10_naive_timestamps_positional_index :
    (∀ t : Timestamp, ValidTimestamp t →
      parseTimestamp (renderISO t) = some t ∧ parseTimestamp (renderNaive t) = some t) ∧
    (∀ ts : List Timestamp, (mkSeries ts).index = List.range ts.length) ∧
    (∀ (ts : List Timestamp) (i : Nat), i < ts.length →
      (mkSeries ts).index[i]? = some i) := by
  refine ⟨fun t hv => ⟨?_, ?_⟩, fun ts => rfl, fun ts i hi => ?_⟩
  · exact parse_renderTail t hv ['Z'] (Or.inr rfl)
  · exact parse_renderTail t hv [] (Or.inl rfl)
  · show (List.range ts.length)[i]? = some i
    exact List.getElem?_range hi

theorem C10_witness :
    (parseTimestamp (renderISO ts0) = some ts0 ∧
      parseTimestamp (renderNaive ts0) = some ts0) ∧
    (mkSeries tsTwo).index[1]? = some 1 :=
  ⟨C10_naive_timestamps_positional_index.1 ts0 (by decide),
    C10_naive_timestamps_positional_index.2.2 tsTwo 1 (by decide)⟩
